import Mathlib

/-!
Shallow embedding of the wafer-map ingestion pipeline
(`src/utils/data_loader.py`, function `load_wafer_dataset`) and of the
business savings calculator (`business/roi_calculator.py`, class
`ROICalculator`).

Modelling conventions:
* a numpy array is abstracted to its shape (the loader inspects only
  `ndim` and `shape`);
* a pickled record is a shape-tagged inductive covering the three access
  shapes the loader distinguishes (named tuple, mapping, attribute object);
* Python `str` is `String`; Python `str.strip` is `pyStrip` below;
* numeric configuration values are `Rat` (idealizing Python floats);
* a raised exception is the `Except.error` branch of `Except Unit`.
-/

/-- A numpy array abstracted to its shape; `ndim` is the length of the
shape. -/
structure NpArray where
  shape : List Nat
deriving DecidableEq

/-- The number of dimensions of the array, `a.ndim` in numpy. -/
def NpArray.ndim (a : NpArray) : Nat := a.shape.length

/-- The raw wafer-map value of a record: either a value that `np.array`
coerces to an array of some shape, or a value on which the coercion
raises. -/
inductive WaferRaw where
  | arr (a : NpArray)
  | bad
deriving DecidableEq

/-- An element of a Python list stored under `failureType`: either a
scalar, given by its `str()` form, or a nested list whose elements are
given by their `str()` forms. -/
inductive LabelItem where
  | scalar (s : String)
  | sub (elems : List String)
deriving DecidableEq

/-- The `str()` form of a list element.  For a nested list we model the
Python repr as the bracketed comma-join of the element forms (the exact
quoting of the repr is irrelevant downstream: no bracketed string is in
the class taxonomy). -/
def LabelItem.strForm : LabelItem → String
  | .scalar s => s
  | .sub es => "[" ++ String.intercalate ", " es ++ "]"

/-- The raw `failureType` value of a record, tagged by the shape the
loader distinguishes with `isinstance`: a numpy array (its flat elements
given by their `str()` forms), a Python list, a plain string, or any
other shape. -/
inductive FailureType where
  | arr (elems : List String)
  | lst (elems : List LabelItem)
  | str (s : String)
  | other
deriving DecidableEq

/-- The value obtained by accessing a field of a tuple-shaped record:
present with a value, present but `None`, or missing (the attribute
access raises). -/
inductive AttrVal (α : Type) where
  | val (a : α)
  | pynone
  | missing
deriving DecidableEq

/-- A raw record of the pickled archive, in one of the three shapes the
loader distinguishes: a tuple with a named `waferMap` field, a mapping
(`dict`), or any other object accessed through `getattr`.  For the tuple
shape `waferMap : Option WaferRaw` uses `none` for a present-but-`None`
value (`hasattr` guarantees presence), while `failureType` may also be
missing, in which case the attribute access raises.  For the mapping and
attribute shapes, `none` in `waferMap`/`failureType` covers both an
absent key/attribute and a `None` value (both produce Python `None`);
`none` in `lotName`/`waferIndex` means the default (`""` resp. `0`) is
used. -/
inductive RawRecord where
  | tup (waferMap : Option WaferRaw) (failureType : AttrVal FailureType)
      (lotName : Option String) (waferIndex : Option Int)
  | dict (waferMap : Option WaferRaw) (failureType : Option FailureType)
      (lotName : Option String) (waferIndex : Option Int)
  | obj (waferMap : Option WaferRaw) (failureType : Option FailureType)
      (lotName : Option String) (waferIndex : Option Int)
deriving DecidableEq

/-- One row of the metadata collected for an accepted sample
(`metadata_rows.append({...})` in the source). -/
structure MetaRow where
  lotName : String
  waferIndex : Int
  failureType : String
  mapped_label : Nat
deriving DecidableEq

/-- Python whitespace characters, the set stripped by `str.strip()`. -/
def isPySpace (c : Char) : Bool :=
  c = ' ' || c = '\t' || c = '\n' || c = '\r' || c = '\x0b' || c = '\x0c'

/-- Python `str.strip()`: remove leading and trailing whitespace. -/
def pyStrip (s : String) : String :=
  String.mk (((s.data.dropWhile isPySpace).reverse.dropWhile isPySpace).reverse)

/-- The fixed 9-entry class taxonomy `class_map` of the source, as an
association list (Python dicts preserve insertion order). -/
def class_map : List (String × Nat) :=
  [("none", 0), ("Center", 1), ("Donut", 2), ("Edge-Loc", 3),
   ("Edge-Ring", 4), ("Loc", 5), ("Near-full", 6), ("Random", 7),
   ("Scratch", 8)]

/-- Dictionary lookup in `class_map`: combines the membership test
`f_label not in class_map` and the indexing `class_map[f_label]` of the
source into one optional lookup. -/
def classMapLookup (s : String) : Option Nat :=
  (class_map.find? (fun p => p.1 == s)).map (fun p => p.2)

/-- Field extraction from one raw record (the isinstance-dispatched block
at the top of the loop body).  Returns the extracted quadruple, or an
error when the extraction itself raises (a tuple record without a
`failureType` field). -/
def extract (record : RawRecord) :
    Except Unit (Option WaferRaw × Option FailureType × String × Int) :=
  match record with
  | .tup wm ft ln wi =>
    match ft with
    | .missing => .error ()
    | .pynone => .ok (wm, none, ln.getD "", wi.getD 0)
    | .val f => .ok (wm, some f, ln.getD "", wi.getD 0)
  | .dict wm ft ln wi => .ok (wm, ft, ln.getD "", wi.getD 0)
  | .obj wm ft ln wi => .ok (wm, ft, ln.getD "", wi.getD 0)

/-- Normalization of the raw `failureType` value into a label string
(the isinstance chain of the source).  `none` means the shape is
rejected (`else: skipped_count += 1; continue`). -/
def normalizeLabel (failure_type : FailureType) : Option String :=
  match failure_type with
  | .arr es =>
    if es.length = 0 then some "none"
    else some (es.headD "")
  | .lst es =>
    if es.length = 0 then some "none"
    else
      let item := es.headD (.scalar "")
      match item with
      | .sub sub_es =>
        if sub_es.length > 0 then some (sub_es.headD "")
        else some item.strForm
      | .scalar _ => some item.strForm
  | .str s => some s
  | .other => none

/-- The label-normalization rules as the specification words them
(shape-ordered): an array-like wrapper with zero elements gives "none",
otherwise the string form of its first element; an empty plain sequence
gives "none", a first element that is a nonempty nested sequence gives
the string form of that nested sequence's first element, otherwise the
string form of the first element; a plain string is used as-is; any
other shape is rejected. -/
def normalizeLabel_spec (ft : FailureType) : Option String :=
  match ft with
  | .arr [] => some "none"
  | .arr (e :: _) => some e
  | .lst [] => some "none"
  | .lst (LabelItem.sub (x :: _) :: _) => some x
  | .lst (item :: _) => some item.strForm
  | .str s => some s
  | .other => none

/-- The body of the per-record `try:` block.  `Except.error` models an
exception escaping the body (caught by the per-record handler),
`.ok none` an explicit skip (`continue` after `skipped_count += 1`), and
`.ok (some _)` an accepted sample: the appended image, label and
metadata row. -/
def processRecordE (record : RawRecord) :
    Except Unit (Option (NpArray × Nat × MetaRow)) :=
  match extract record with
  | .error e => .error e
  | .ok (wmRaw, ftOpt, lot_name, wafer_index) =>
    match wmRaw, ftOpt with
    | none, _ => .ok none
    | some _, none => .ok none
    | some wraw, some failure_type =>
      match wraw with
      | .bad => .error ()
      | .arr wafer_map =>
        if wafer_map.ndim = 2 then
          match normalizeLabel failure_type with
          | none => .ok none
          | some lbl =>
            match classMapLookup (pyStrip lbl) with
            | none => .ok none
            | some label_idx =>
              .ok (some (wafer_map, label_idx,
                ⟨lot_name, wafer_index, pyStrip lbl, label_idx⟩))
        else .ok none

/-- The per-record processing with the `except Exception` handler
wrapped around it: an exception becomes a skip. -/
def processRecord (record : RawRecord) : Option (NpArray × Nat × MetaRow) :=
  match processRecordE record with
  | .error _ => none
  | .ok o => o

/-- The mutable accumulation state of the loop: the three appended lists
and the skipped counter. -/
structure LoadState where
  images : List NpArray
  labels : List Nat
  metadata_rows : List MetaRow
  skipped_count : Nat
deriving DecidableEq

/-- The initial state of the loop. -/
def initState : LoadState := ⟨[], [], [], 0⟩

/-- One iteration of the loop: append the accepted sample to the three
lists, or increment `skipped_count`. -/
def stepRecord (st : LoadState) (record : RawRecord) : LoadState :=
  match processRecord record with
  | none => { st with skipped_count := st.skipped_count + 1 }
  | some (wm, idx, row) =>
    { st with
      images := st.images ++ [wm]
      labels := st.labels ++ [idx]
      metadata_rows := st.metadata_rows ++ [row] }

/-- The full record loop of `load_wafer_dataset`. -/
def load_wafer_loop (records : List RawRecord) : LoadState :=
  records.foldl stepRecord initState

/-- The archive as seen by the top of `load_wafer_dataset`: whether
`os.path.exists` holds for the path, and the record list produced by
`pickle.load` (`none` when deserialization raises). -/
structure Archive where
  pathExists : Bool
  records : Option (List RawRecord)
deriving DecidableEq

/-- The two fatal error kinds of the loader: `FileNotFoundError` for a
missing path, `ValueError` for a pickle that fails to deserialize. -/
inductive LoadError where
  | fileNotFound
  | formatError
deriving DecidableEq

/-- `load_wafer_dataset`: the fatal checks followed by the record loop;
on success returns the images, labels and metadata rows. -/
def load_wafer_dataset (a : Archive) :
    Except LoadError (List NpArray × List Nat × List MetaRow) :=
  if a.pathExists = false then .error .fileNotFound
  else
    match a.records with
    | none => .error .formatError
    | some records =>
      let st := load_wafer_loop records
      .ok (st.images, st.labels, st.metadata_rows)

/-- Python `min` over a list, defined on nonempty lists; the `[]` case is
never reached by the loader (guarded by `valid_count > 0`). -/
def pyMin (xs : List Nat) : Nat :=
  match xs with
  | [] => 0
  | x :: rest => rest.foldl Nat.min x

/-- Python `max` over a list, defined on nonempty lists; the `[]` case is
never reached by the loader (guarded by `valid_count > 0`). -/
def pyMax (xs : List Nat) : Nat :=
  match xs with
  | [] => 0
  | x :: rest => rest.foldl Nat.max x

/-- The image-dimension extrema computed by the loader:
`(h_min, h_max, w_min, w_max)`, all zero when no sample was accepted. -/
def dims_extrema (images : List NpArray) : Nat × Nat × Nat × Nat :=
  if images.length > 0 then
    let heights := images.map (fun img => img.shape.getD 0 0)
    let widths := images.map (fun img => img.shape.getD 1 0)
    (pyMin heights, pyMax heights, pyMin widths, pyMax widths)
  else (0, 0, 0, 0)

/-- The per-class percentage printed by the loader:
`(count / valid_count) * 100 if valid_count > 0 else 0`, over `Rat`
(idealizing Python float division). -/
def class_pct (count valid_count : Nat) : Rat :=
  if valid_count > 0 then ((count : Rat) / (valid_count : Rat)) * 100 else 0

/-- The ROI configuration: an ordered mapping from section names to
ordered mappings from field names to numeric values (Python dicts
preserve insertion order; YAML numeric leaves are modelled as `Rat`). -/
def Config : Type := List (String × List (String × Rat))

/-- `inputs.get(sec, {}).get(fld)`: optional two-level lookup. -/
def cfgGet (cfg : Config) (sec fld : String) : Option Rat :=
  match cfg.lookup sec with
  | none => none
  | some fields => fields.lookup fld

/-- `inputs[sec][fld]` after validation has guaranteed presence; the
default 0 branch is unreachable on validated inputs. -/
def getVal (cfg : Config) (sec fld : String) : Rat :=
  (cfgGet cfg sec fld).getD 0

/-- The `required` key list of `ROICalculator.validate_inputs`, as
(section, field) pairs. -/
def required : List (String × String) :=
  [("factory", "wafers_per_day"),
   ("factory", "operating_days_per_month"),
   ("manual_inspection", "time_per_wafer_minutes"),
   ("manual_inspection", "inspector_hourly_wage_inr"),
   ("manual_inspection", "false_negative_rate"),
   ("manual_inspection", "false_positive_rate"),
   ("ai_performance", "false_negative_rate"),
   ("ai_performance", "false_positive_rate"),
   ("costs", "wafer_cost_inr"),
   ("costs", "defective_wafer_downstream_cost_multiplier"),
   ("costs", "system_development_cost_inr"),
   ("costs", "monthly_compute_cost_inr")]

/-- `ROICalculator.validate_inputs`: raises `ValueError` when any
required key resolves to `None`. -/
def validate_inputs (inputs : Config) : Except String Unit :=
  let missing := required.filter (fun k => (cfgGet inputs k.1 k.2).isNone)
  if missing.isEmpty then .ok ()
  else .error "Missing required ROI inputs"

/-- `ROICalculator.calculate_labor_savings`. -/
def calculate_labor_savings (inputs : Config) : Rat :=
  let wafers_month :=
    getVal inputs "factory" "wafers_per_day" *
      getVal inputs "factory" "operating_days_per_month"
  let hours_month :=
    (wafers_month * getVal inputs "manual_inspection" "time_per_wafer_minutes") / 60
  let savings := hours_month * getVal inputs "manual_inspection" "inspector_hourly_wage_inr"
  max 0 savings

/-- `ROICalculator.calculate_quality_improvement`. -/
def calculate_quality_improvement (inputs : Config) : Rat :=
  let wafers_month :=
    getVal inputs "factory" "wafers_per_day" *
      getVal inputs "factory" "operating_days_per_month"
  let manual_missed := wafers_month * getVal inputs "manual_inspection" "false_negative_rate"
  let ai_missed := wafers_month * getVal inputs "ai_performance" "false_negative_rate"
  let defects_caught := max 0 (manual_missed - ai_missed)
  let cost_per_escape :=
    getVal inputs "costs" "wafer_cost_inr" *
      getVal inputs "costs" "defective_wafer_downstream_cost_multiplier"
  let savings := defects_caught * cost_per_escape
  max 0 savings

/-- `ROICalculator.calculate_scrap_reduction`. -/
def calculate_scrap_reduction (inputs : Config) : Rat :=
  let wafers_month :=
    getVal inputs "factory" "wafers_per_day" *
      getVal inputs "factory" "operating_days_per_month"
  let manual_scrapped := wafers_month * getVal inputs "manual_inspection" "false_positive_rate"
  let ai_scrapped := wafers_month * getVal inputs "ai_performance" "false_positive_rate"
  let wafers_saved := max 0 (manual_scrapped - ai_scrapped)
  let savings := wafers_saved * getVal inputs "costs" "wafer_cost_inr"
  max 0 savings

/-- `dict.update(data)` on a field mapping: every key of `data` is set in
order, overwriting an existing entry in place or appending a new one. -/
def updateField (fields : List (String × Rat)) (k : String) (v : Rat) :
    List (String × Rat) :=
  if fields.any (fun p => p.1 == k) then
    fields.map (fun p => if p.1 == k then (p.1, v) else p)
  else fields ++ [(k, v)]

/-- `inputs[sec].update(data)`: fold `updateField` over the override
data in order. -/
def dictUpdate (fields data : List (String × Rat)) : List (String × Rat) :=
  data.foldl (fun fs kv => updateField fs kv.1 kv.2) fields

/-- The override-merge loop of `generate_report`:
`for sec, data in user_overrides.items(): if sec in inputs:
inputs[sec].update(data)` applied to a deep copy of the
configuration. -/
def mergeUserOverrides (cfg : Config) (user_overrides : Config) : Config :=
  user_overrides.foldl
    (fun inputs sd =>
      if inputs.any (fun p => p.1 == sd.1) then
        inputs.map (fun p => if p.1 == sd.1 then (p.1, dictUpdate p.2 sd.2) else p)
      else inputs)
    cfg

/-- The object state of a `ROICalculator`: its loaded configuration. -/
structure ROICalculator where
  config : Config

/-- The report of `generate_report`: the DataFrame rows as
(category, monthly savings) pairs, and the payback period in months
(`none` models `float("inf")` when the total is not positive). -/
structure ROIReport where
  rows : List (String × Rat)
  payback_months : Option Rat

/-- `ROICalculator.generate_report`, with the object state passed and
returned explicitly: merges the overrides into a deep copy of the
configuration (so the returned state is the unchanged `self`), validates,
and computes the savings report.  The `Except.error` branch models the
`ValueError` of a failed validation propagating to the caller; the
advisory assumptions text is not modelled. -/
def ROICalculator.generate_report (self : ROICalculator)
    (user_overrides : Option Config) :
    ROICalculator × Except String ROIReport :=
  let inputs := mergeUserOverrides self.config (user_overrides.getD [])
  (self,
    match validate_inputs inputs with
    | .error e => .error e
    | .ok _ =>
      let labor_savings := calculate_labor_savings inputs
      let quality_savings := calculate_quality_improvement inputs
      let scrap_savings := calculate_scrap_reduction inputs
      let total_monthly := labor_savings + quality_savings + scrap_savings
      let dev_cost := (cfgGet inputs "costs" "system_development_cost_inr").getD 0
      let payback := if total_monthly > 0 then some (dev_cost / total_monthly) else none
      .ok ⟨[("Labor Optimization", labor_savings),
            ("Quality Improvement", quality_savings),
            ("Scrap Reduction", scrap_savings),
            ("Total", total_monthly)], payback⟩)

/-- A well-formed mapping-shaped record (Scenario A of the spec): a 2×2
wafer map with failure type "Center". -/
def recCenter : RawRecord :=
  .dict (some (.arr ⟨[2, 2]⟩)) (some (.str "Center")) none none

/-! ## Theorems -/

theorem classMapLookup_le (s : String) (n : Nat)
    (h : classMapLookup s = some n) : n ≤ 8 := by
  unfold classMapLookup at h
  rw [Option.map_eq_some'] at h
  obtain ⟨p, hf, hn⟩ := h
  have hm := List.mem_of_find?_eq_some hf
  simp only [class_map, List.mem_cons, List.not_mem_nil, or_false] at hm
  rcases hm with rfl|rfl|rfl|rfl|rfl|rfl|rfl|rfl|rfl <;> omega

theorem processRecordE_accept (record : RawRecord) (wm : NpArray)
    (idx : Nat) (row : MetaRow)
    (h : processRecordE record = .ok (some (wm, idx, row))) :
    wm.ndim = 2 ∧ idx ≤ 8 ∧ row.mapped_label = idx := by
  unfold processRecordE at h
  repeat' split at h
  any_goals cases h
  exact ⟨by assumption, classMapLookup_le _ _ (by assumption), rfl⟩

theorem processRecord_accept (record : RawRecord) (wm : NpArray)
    (idx : Nat) (row : MetaRow)
    (h : processRecord record = some (wm, idx, row)) :
    wm.ndim = 2 ∧ idx ≤ 8 ∧ row.mapped_label = idx := by
  unfold processRecord at h
  rcases he : processRecordE record with e | o <;> rw [he] at h
  · cases h
  · have h2 : o = some (wm, idx, row) := h
    rw [h2] at he
    exact processRecordE_accept record wm idx row he

theorem stepRecord_sum (st : LoadState) (record : RawRecord) :
    (stepRecord st record).images.length + (stepRecord st record).skipped_count
      = st.images.length + st.skipped_count + 1 := by
  rcases hp : processRecord record with _ | ⟨wm, idx, row⟩ <;>
    simp [stepRecord, hp] <;> omega

theorem loop_sum (records : List RawRecord) : ∀ st : LoadState,
    (records.foldl stepRecord st).images.length
        + (records.foldl stepRecord st).skipped_count
      = st.images.length + st.skipped_count + records.length := by
  induction records with
  | nil => intro st; simp
  | cons r rest ih =>
    intro st
    rw [List.foldl_cons, ih]
    have h := stepRecord_sum st r
    simp only [List.length_cons]
    omega

/-- C1: every record is either accepted (contributing exactly one sample)
or skipped (incrementing the counter by one), so the accepted count plus
the skipped count equals the number of records scanned by the loop of
`load_wafer_dataset`. -/
theorem C1_accepted_plus_skipped (records : List RawRecord) :
    (load_wafer_loop records).images.length
        + (load_wafer_loop records).skipped_count
      = records.length := by
  unfold load_wafer_loop
  rw [loop_sum]
  simp [initState]

/-- C2: label normalization follows the shape-ordered rules stated by the
specification (`normalizeLabel` agrees with `normalizeLabel_spec`, the
rules transcribed from the spec), and in the record-processing path the
resulting string is stripped of surrounding whitespace before the
taxonomy lookup; an unrecognized shape is rejected (skipped). -/
theorem C2_normalization_rules :
    (∀ ft : FailureType, normalizeLabel ft = normalizeLabel_spec ft) ∧
    (∀ (wm : NpArray) (ft : FailureType) (ln : Option String) (wi : Option Int),
      wm.ndim = 2 →
      (normalizeLabel ft = none →
        processRecordE (RawRecord.dict (some (WaferRaw.arr wm)) (some ft) ln wi)
          = .ok none) ∧
      (∀ lbl : String, normalizeLabel ft = some lbl →
        classMapLookup (pyStrip lbl) = none →
        processRecordE (RawRecord.dict (some (WaferRaw.arr wm)) (some ft) ln wi)
          = .ok none) ∧
      (∀ (lbl : String) (idx : Nat), normalizeLabel ft = some lbl →
        classMapLookup (pyStrip lbl) = some idx →
        processRecordE (RawRecord.dict (some (WaferRaw.arr wm)) (some ft) ln wi)
          = .ok (some (wm, idx, ⟨ln.getD "", wi.getD 0, pyStrip lbl, idx⟩)))) := by
  constructor
  · intro ft
    rcases ft with es | es | s | _
    · rcases es with _ | ⟨e, rest⟩ <;> rfl
    · rcases es with _ | ⟨item, rest⟩
      · rfl
      · rcases item with s | sub_es
        · rfl
        · rcases sub_es with _ | ⟨x, xs⟩ <;>
            simp [normalizeLabel, normalizeLabel_spec, LabelItem.strForm]
    · rfl
    · rfl
  · intro wm ft ln wi hnd
    refine ⟨?_, ?_, ?_⟩
    · intro hn
      simp [processRecordE, extract, hnd, hn]
    · intro lbl hn hc
      simp [processRecordE, extract, hnd, hn, hc]
    · intro lbl idx hn hc
      simp [processRecordE, extract, hnd, hn, hc]

/-- Witness for C2 at concrete inputs: a padded "  Center " label is
stripped and accepted with class id 1. -/
theorem C2_normalization_rules_witness :
    normalizeLabel (FailureType.str " Center ") = normalizeLabel_spec (FailureType.str " Center ") ∧
    processRecordE (RawRecord.dict (some (WaferRaw.arr ⟨[2, 2]⟩))
        (some (FailureType.str " Center ")) (some "L1") (some 5))
      = .ok (some (⟨[2, 2]⟩, 1, ⟨"L1", 5, "Center", 1⟩)) := by
  refine ⟨C2_normalization_rules.1 _, ?_⟩
  have h := (C2_normalization_rules.2 ⟨[2, 2]⟩ (FailureType.str " Center ")
    (some "L1") (some 5) (by decide)).2.2 " Center " 1 rfl (by decide)
  simpa using h

theorem stepRecord_inv (st : LoadState) (record : RawRecord)
    (h1 : ∀ l ∈ st.labels, l ≤ 8) (h2 : ∀ img ∈ st.images, img.ndim = 2) :
    (∀ l ∈ (stepRecord st record).labels, l ≤ 8) ∧
      (∀ img ∈ (stepRecord st record).images, img.ndim = 2) := by
  rcases hp : processRecord record with _ | ⟨wm, idx, row⟩
  · simp only [stepRecord, hp]
    exact ⟨h1, h2⟩
  · obtain ⟨hnd, hle, _⟩ := processRecord_accept record wm idx row hp
    simp only [stepRecord, hp]
    constructor
    · intro l hl
      rcases List.mem_append.mp hl with hm | hm
      · exact h1 l hm
      · rw [List.mem_singleton.mp hm]; exact hle
    · intro img hi
      rcases List.mem_append.mp hi with hm | hm
      · exact h2 img hm
      · rw [List.mem_singleton.mp hm]; exact hnd

theorem loop_inv (records : List RawRecord) : ∀ st : LoadState,
    (∀ l ∈ st.labels, l ≤ 8) → (∀ img ∈ st.images, img.ndim = 2) →
    (∀ l ∈ (records.foldl stepRecord st).labels, l ≤ 8) ∧
      (∀ img ∈ (records.foldl stepRecord st).images, img.ndim = 2) := by
  induction records with
  | nil => intro st h1 h2; exact ⟨h1, h2⟩
  | cons r rest ih =>
    intro st h1 h2
    rw [List.foldl_cons]
    obtain ⟨h1s, h2s⟩ := stepRecord_inv st r h1 h2
    exact ih (stepRecord st r) h1s h2s

/-- C3: every accepted sample of the loop has a class id in {0,...,8} and
a 2-dimensional wafer map; and a record whose coerced wafer map is not
2-dimensional, or whose (stripped) label string is not in the taxonomy,
is skipped (the counter is incremented and no sample is appended). -/
theorem C3_accepted_invariants (records : List RawRecord) :
    ((∀ l ∈ (load_wafer_loop records).labels, l ≤ 8) ∧
      (∀ img ∈ (load_wafer_loop records).images, img.ndim = 2)) ∧
    (∀ (st : LoadState) (record : RawRecord) (wm : NpArray) (ft : FailureType)
        (lot : String) (wi : Int),
      extract record = .ok (some (WaferRaw.arr wm), some ft, lot, wi) →
      (wm.ndim ≠ 2 ∨
        (∃ lbl : String, normalizeLabel ft = some lbl ∧
          classMapLookup (pyStrip lbl) = none)) →
      stepRecord st record = { st with skipped_count := st.skipped_count + 1 }) := by
  constructor
  · exact loop_inv records initState (by simp [initState]) (by simp [initState])
  · intro st record wm ft lot wi hext hbad
    have hskip : processRecord record = none := by
      unfold processRecord processRecordE
      rw [hext]
      by_cases hnd : wm.ndim = 2
      · rcases hbad with hbad | ⟨lbl, hn, hc⟩
        · exact absurd hnd hbad
        · simp [hnd, hn, hc]
      · simp [hnd]
    simp only [stepRecord, hskip]

/-- Witness for C3: a run over Scenario A plus a 1-dimensional record;
the invariant and the skip clause are applied at concrete inputs. -/
theorem C3_accepted_invariants_witness :
    ((1 : Nat) ≤ 8 ∧ (⟨[2, 2]⟩ : NpArray).ndim = 2) ∧
    stepRecord initState
        (RawRecord.dict (some (WaferRaw.arr ⟨[7]⟩)) (some (FailureType.str "Center")) none none)
      = { initState with skipped_count := initState.skipped_count + 1 } := by
  refine ⟨⟨?_, ?_⟩, ?_⟩
  · exact (C3_accepted_invariants [recCenter]).1.1 1 (by decide)
  · exact (C3_accepted_invariants [recCenter]).1.2 ⟨[2, 2]⟩ (by decide)
  · exact (C3_accepted_invariants []).2 initState
      (RawRecord.dict (some (WaferRaw.arr ⟨[7]⟩)) (some (FailureType.str "Center")) none none)
      ⟨[7]⟩ (FailureType.str "Center") "" 0 rfl (Or.inl (by decide))

/-- C4: a missing archive path yields the fatal not-found error, a
deserialization failure the distinct fatal format error, and in both
cases `load_wafer_dataset` returns an error and no incomplete results. -/
theorem C4_fatal_errors (a : Archive) :
    (a.pathExists = false → load_wafer_dataset a = .error LoadError.fileNotFound) ∧
    (a.pathExists = true → a.records = none →
      load_wafer_dataset a = .error LoadError.formatError) ∧
    LoadError.fileNotFound ≠ LoadError.formatError := by
  refine ⟨?_, ?_, by decide⟩
  · intro h
    simp [load_wafer_dataset, h]
  · intro h1 h2
    simp [load_wafer_dataset, h1, h2]

/-- Witness for C4 at concrete archives: a missing path and an
undeserializable archive. -/
theorem C4_fatal_errors_witness :
    load_wafer_dataset ⟨false, some []⟩ = .error LoadError.fileNotFound ∧
    load_wafer_dataset ⟨true, none⟩ = .error LoadError.formatError :=
  ⟨(C4_fatal_errors ⟨false, some []⟩).1 rfl,
   (C4_fatal_errors ⟨true, none⟩).2.1 rfl rfl⟩

/-- C5: a record whose failure-type value is an empty sequence is
normalized to "none" and accepted with class id 0, given a 2-dimensional
wafer map. -/
theorem C5_empty_sequence_none (wm : NpArray) (ln : Option String)
    (wi : Option Int) (h : wm.ndim = 2) :
    processRecord (RawRecord.dict (some (WaferRaw.arr wm))
        (some (FailureType.lst [])) ln wi)
      = some (wm, 0, ⟨ln.getD "", wi.getD 0, "none", 0⟩) := by
  simp [processRecord, processRecordE, extract, h, normalizeLabel]
  rfl

/-- Witness for C5 at a concrete 3×4 wafer map. -/
theorem C5_empty_sequence_none_witness :
    processRecord (RawRecord.dict (some (WaferRaw.arr ⟨[3, 4]⟩))
        (some (FailureType.lst [])) (some "lotX") (some 2))
      = some (⟨[3, 4]⟩, 0, ⟨"lotX", 2, "none", 0⟩) :=
  C5_empty_sequence_none ⟨[3, 4]⟩ (some "lotX") (some 2) (by decide)

/-- C6: label normalization is idempotent on the canonical labels: for
every key of the taxonomy, the plain-string rule followed by the
whitespace trim returns the string unchanged. -/
theorem C6_idempotent_on_canonical (s : String)
    (h : s ∈ class_map.map Prod.fst) :
    (normalizeLabel (FailureType.str s)).map pyStrip = some s := by
  simp only [class_map, List.map_cons, List.map_nil, List.mem_cons,
    List.not_mem_nil, or_false] at h
  rcases h with rfl|rfl|rfl|rfl|rfl|rfl|rfl|rfl|rfl <;> decide

/-- Witness for C6 at the canonical label "Edge-Ring". -/
theorem C6_idempotent_on_canonical_witness :
    (normalizeLabel (FailureType.str "Edge-Ring")).map pyStrip = some "Edge-Ring" :=
  C6_idempotent_on_canonical "Edge-Ring" (by decide)

/-- C7: with no accepted samples the four image-dimension extrema are all
0 and every per-class percentage is the guarded 0; with accepted samples
each class percentage equals count divided by the accepted total times
100. -/
theorem C7_guarded_statistics (records : List RawRecord) :
    ((load_wafer_loop records).images.length = 0 →
      dims_extrema (load_wafer_loop records).images = (0, 0, 0, 0) ∧
      ∀ c : Nat, class_pct ((load_wafer_loop records).labels.count c)
          (load_wafer_loop records).images.length = 0) ∧
    (0 < (load_wafer_loop records).images.length →
      ∀ c : Nat, class_pct ((load_wafer_loop records).labels.count c)
          (load_wafer_loop records).images.length
        = (((load_wafer_loop records).labels.count c : Rat)
            / ((load_wafer_loop records).images.length : Rat)) * 100) := by
  constructor
  · intro h
    constructor
    · rw [List.length_eq_zero.mp h]
      rfl
    · intro c
      simp [class_pct, h]
  · intro h c
    simp only [class_pct]
    rw [if_pos h]

/-- Witness for C7: the empty run has all-zero extrema and zero
percentages; a one-record run has percentage count/total × 100. -/
theorem C7_guarded_statistics_witness :
    (dims_extrema (load_wafer_loop []).images = (0, 0, 0, 0) ∧
      class_pct ((load_wafer_loop []).labels.count 0)
          (load_wafer_loop []).images.length = 0) ∧
    class_pct ((load_wafer_loop [recCenter]).labels.count 1)
        (load_wafer_loop [recCenter]).images.length
      = (((load_wafer_loop [recCenter]).labels.count 1 : Rat)
          / ((load_wafer_loop [recCenter]).images.length : Rat)) * 100 := by
  refine ⟨⟨?_, ?_⟩, ?_⟩
  · exact ((C7_guarded_statistics []).1 rfl).1
  · exact ((C7_guarded_statistics []).1 rfl).2 0
  · exact (C7_guarded_statistics [recCenter]).2 (by decide) 1

/-- C8: an exception raised inside the per-record body is caught at the
record boundary: the step folds it into an increment of the skipped
counter (no sample appended, nothing propagates) and the loop continues
with the remaining records. -/
theorem C8_exception_caught (record : RawRecord) (rest : List RawRecord)
    (st : LoadState) (h : processRecordE record = Except.error ()) :
    stepRecord st record = { st with skipped_count := st.skipped_count + 1 } ∧
    List.foldl stepRecord st (record :: rest)
      = List.foldl stepRecord (stepRecord st record) rest := by
  constructor
  · have hp : processRecord record = none := by
      unfold processRecord
      rw [h]
    simp only [stepRecord, hp]
  · exact List.foldl_cons rest st

/-- Witness for C8: a tuple record without a `failureType` field (whose
access raises) is skipped and the loop proceeds. -/
theorem C8_exception_caught_witness :
    stepRecord initState
        (RawRecord.tup (some (WaferRaw.arr ⟨[2, 2]⟩)) AttrVal.missing none none)
      = { initState with skipped_count := initState.skipped_count + 1 } ∧
    List.foldl stepRecord initState
        [RawRecord.tup (some (WaferRaw.arr ⟨[2, 2]⟩)) AttrVal.missing none none]
      = List.foldl stepRecord
          (stepRecord initState
            (RawRecord.tup (some (WaferRaw.arr ⟨[2, 2]⟩)) AttrVal.missing none none)) [] :=
  C8_exception_caught
    (RawRecord.tup (some (WaferRaw.arr ⟨[2, 2]⟩)) AttrVal.missing none none)
    [] initState rfl

theorem stepRecord_aligned (st : LoadState) (record : RawRecord)
    (h1 : st.images.length = st.labels.length)
    (h2 : st.metadata_rows.map MetaRow.mapped_label = st.labels) :
    (stepRecord st record).images.length = (stepRecord st record).labels.length ∧
      (stepRecord st record).metadata_rows.map MetaRow.mapped_label
        = (stepRecord st record).labels := by
  rcases hp : processRecord record with _ | ⟨wm, idx, row⟩
  · simp only [stepRecord, hp]
    exact ⟨h1, h2⟩
  · have hml : row.mapped_label = idx := (processRecord_accept record wm idx row hp).2.2
    simp only [stepRecord, hp]
    constructor
    · simp [h1]
    · simp [List.map_append, h2, hml]

theorem loop_aligned (records : List RawRecord) : ∀ st : LoadState,
    st.images.length = st.labels.length →
    st.metadata_rows.map MetaRow.mapped_label = st.labels →
    (records.foldl stepRecord st).images.length
        = (records.foldl stepRecord st).labels.length ∧
      (records.foldl stepRecord st).metadata_rows.map MetaRow.mapped_label
        = (records.foldl stepRecord st).labels := by
  induction records with
  | nil => intro st h1 h2; exact ⟨h1, h2⟩
  | cons r rest ih =>
    intro st h1 h2
    rw [List.foldl_cons]
    obtain ⟨h1s, h2s⟩ := stepRecord_aligned st r h1 h2
    exact ih (stepRecord st r) h1s h2s

/-- C9: after every run the images, labels and metadata rows have equal
length, and the mapped_label column of the metadata equals the labels
list entrywise. -/
theorem C9_lists_aligned (records : List RawRecord) :
    (load_wafer_loop records).images.length = (load_wafer_loop records).labels.length ∧
    (load_wafer_loop records).labels.length
        = (load_wafer_loop records).metadata_rows.length ∧
    (load_wafer_loop records).metadata_rows.map MetaRow.mapped_label
        = (load_wafer_loop records).labels := by
  obtain ⟨h1, h2⟩ := loop_aligned records initState rfl rfl
  refine ⟨h1, ?_, h2⟩
  unfold load_wafer_loop
  rw [← h2, List.length_map]

/-- C10: `generate_report` leaves the loaded configuration unchanged (the
overrides are merged into a deep copy), and an override whose section is
not present in the configuration is silently ignored by the merge. -/
theorem C10_config_frame (cfg : Config) (user_overrides : Option Config) :
    ((ROICalculator.mk cfg).generate_report user_overrides).1.config = cfg ∧
    (∀ (sec : String) (data : List (String × Rat)) (tail : Config),
      cfg.any (fun p => p.1 == sec) = false →
      mergeUserOverrides cfg ((sec, data) :: tail) = mergeUserOverrides cfg tail) := by
  refine ⟨rfl, ?_⟩
  intro sec data tail h
  unfold mergeUserOverrides
  rw [List.foldl_cons]
  simp [h]

/-- Witness for C10: overriding the absent section "bogus" changes
nothing, and the calculator's configuration is returned unchanged. -/
theorem C10_config_frame_witness :
    ((ROICalculator.mk [("factory", [("wafers_per_day", 100)])]).generate_report
        (some [("bogus", [("x", 1)])])).1.config
      = [("factory", [("wafers_per_day", 100)])] ∧
    mergeUserOverrides [("factory", [("wafers_per_day", 100)])] [("bogus", [("x", 1)])]
      = mergeUserOverrides [("factory", [("wafers_per_day", 100)])] [] := by
  refine ⟨(C10_config_frame [("factory", [("wafers_per_day", 100)])]
    (some [("bogus", [("x", 1)])])).1, ?_⟩
  exact (C10_config_frame [("factory", [("wafers_per_day", 100)])] none).2
    "bogus" [("x", 1)] [] (by decide)
